import Mathlib

set_option maxRecDepth 4000

/-- Characters treated as whitespace by the cleaning regexes (the ASCII part of the
class backslash-s used by the source's re.sub and re.search calls). -/
def pyWs (c : Char) : Bool :=
  c = ' ' || c = '\t' || c = '\n' || c = '\r' || c = '\x0b' || c = '\x0c'

/-- Word characters, the ASCII part of the class backslash-w. -/
def wordChar (c : Char) : Bool :=
  c.isAlphanum || c = '_'

/-- Characters of the identifier capture class: word characters, dot and dash. -/
def idChar (c : Char) : Bool :=
  wordChar c || c = '.' || c = '-'

/-- Comment stripping state machine, embedding re.sub of percent-to-end-of-line with
the MULTILINE flag (chunk_latex line 217): from a percent sign up to, but not
including, the next newline everything is dropped. -/
def stripCommentsAux : Bool → List Char → List Char
| _, [] => []
| inComment, c :: cs =>
  if c = '\n' then c :: stripCommentsAux false cs
  else if inComment then stripCommentsAux true cs
  else if c = '%' then stripCommentsAux true cs
  else c :: stripCommentsAux false cs

/-- Comment stripping entry point. -/
def stripComments (cs : List Char) : List Char := stripCommentsAux false cs

/-- Whitespace collapsing state machine, embedding re.sub of one-or-more whitespace
characters with a single space (chunk_latex line 218). -/
def collapseWsAux : Bool → List Char → List Char
| _, [] => []
| prevWs, c :: cs =>
  if pyWs c then
    if prevWs then collapseWsAux true cs else ' ' :: collapseWsAux true cs
  else c :: collapseWsAux false cs

/-- Whitespace collapsing entry point. -/
def collapseWs (cs : List Char) : List Char := collapseWsAux false cs

/-- The cleaned corpus of chunk_latex lines 217 and 218: comments stripped, then
whitespace runs collapsed. -/
def cleanContent (content : String) : String :=
  String.mk (collapseWs (stripComments content.data))

/-- Match a literal character list at the head of the input, returning the remainder
of the input on success. -/
def dropLit : List Char → List Char → Option (List Char)
| [], cs => some cs
| _, [] => none
| p :: ps, c :: cs => if p = c then dropLit ps cs else none

/-- Match one keyword alternative of the boundary pattern directly after the
backslash: the keyword, an opening brace, a nonempty run of non-closing-brace
characters (the greedy second capture group), and the closing brace. -/
def matchKwBoundary (kw : List Char) (cs1 : List Char) : Option (String × String × List Char) :=
  match dropLit (kw ++ ['{']) cs1 with
  | none => none
  | some r =>
    let title := r.takeWhile (fun c => !(c = '}'))
    if title.isEmpty then none
    else
      match r.dropWhile (fun c => !(c = '}')) with
      | '}' :: rest => some (String.mk kw, String.mk title, rest)
      | _ => none

/-- Match the section or chapter boundary pattern at the head of the input,
returning the two capture groups (keyword without the backslash, title without the
braces) and the remainder after the closing brace. -/
def matchBoundary : List Char → Option (String × String × List Char)
| '\\' :: cs1 =>
  (match matchKwBoundary (("section").data) cs1 with
   | some r => some r
   | none => matchKwBoundary (("chapter").data) cs1)
| _ => none

/-- Leftmost search for the boundary pattern, as the regex engine does: the text
before the first matching position, the two capture groups, and the remainder. -/
def findBoundary : List Char → Option (List Char × String × String × List Char)
| [] => none
| c :: cs =>
  match matchBoundary (c :: cs) with
  | some (kw, title, rest) => some ([], kw, title, rest)
  | none =>
    match findBoundary cs with
    | some (pre, kw, title, rest) => some (c :: pre, kw, title, rest)
    | none => none

/-- Fuelled worker for the re.split embedding: emit the text before the leftmost
boundary match and the two capture groups, then continue after the match; the
input length is always enough fuel because every match consumes characters. -/
def splitAuxF : Nat → List Char → List String
| 0, cs => [String.mk cs]
| Nat.succ fuel, cs =>
  match findBoundary cs with
  | none => [String.mk cs]
  | some (pre, kw, title, rest) => String.mk pre :: kw :: title :: splitAuxF fuel rest

/-- Embedding of re.split on the boundary pattern (chunk_latex line 221): because
the pattern has capture groups, the Python result list holds, between consecutive
plain-text pieces, the text of both groups; the backslash and the two braces of
each matched marker appear in no list element. -/
def splitSections (cs : List Char) : List String :=
  splitAuxF cs.length cs

/-- Greedy packing loop of chunk_latex lines 224 to 235: when the next fragment
would overflow, flush the running chunk (even an empty one) and restart from that
fragment; afterwards flush a nonempty trailing chunk. -/
def packAux (chunkSize : Nat) : String → List String → List String
| current, [] => if current = "" then [] else [current]
| current, s :: rest =>
  if chunkSize < current.length + s.length then current :: packAux chunkSize s rest
  else packAux chunkSize (current ++ s) rest

/-- DataGenerator.chunk_latex (lines 214 to 237): clean the corpus, split it on the
section and chapter boundary markers, and greedily pack the fragments. -/
def chunk_latex (content : String) (chunk_size : Nat) : List String :=
  packAux chunk_size "" (splitSections ((cleanContent content).data))

/-- Concatenation of a list of strings in order. -/
def concatAll : List String → String
| [] => ""
| s :: rest => s ++ concatAll rest

/-- Attempt one url pattern of extract_arxiv_id at the head of the input: the
literal arxiv, one wildcard character (the dot of the pattern, matching anything
but a newline), the given middle literal, then the nonempty greedy identifier run
that forms the capture group. -/
def matchUrlPat (mid : List Char) (cs : List Char) : Option String :=
  match dropLit (("arxiv").data) cs with
  | none => none
  | some r1 =>
    match r1 with
    | [] => none
    | w :: r2 =>
      if w = '\n' then none
      else
        match dropLit mid r2 with
        | none => none
        | some r3 =>
          let run := r3.takeWhile (fun c => idChar c)
          if run.isEmpty then none else some (String.mk run)

/-- re.search of one url pattern: the leftmost start position at which the whole
pattern matches wins. -/
def searchUrlPat (mid : List Char) : List Char → Option String
| [] => none
| c :: cs =>
  match matchUrlPat mid (c :: cs) with
  | some s => some s
  | none => searchUrlPat mid cs

/-- The anchored bare pattern of extract_arxiv_id: the whole input, allowing one
trailing newline (which the dollar anchor permits), must be a nonempty run of
identifier characters. -/
def bareIdMatch (cs : List Char) : Option String :=
  let cs2 :=
    match cs.getLast? with
    | some c => if c = '\n' then cs.dropLast else cs
    | none => cs
  if cs2.isEmpty then none
  else if cs2.all (fun c => idChar c) then some (String.mk cs2) else none

/-- ArxivFetcher.extract_arxiv_id (lines 52 to 65): try the abs url pattern, then
the pdf url pattern, then the anchored bare pattern, in that order, returning the
first capture group, or none when no pattern matches. -/
def extract_arxiv_id (url_or_id : String) : Option String :=
  match searchUrlPat (("org/abs/").data) url_or_id.data with
  | some r => some r
  | none =>
    match searchUrlPat (("org/pdf/").data) url_or_id.data with
    | some r => some r
    | none => bareIdMatch url_or_id.data

/-- JSON values as produced by the strict parser; numbers keep their source text,
and objects keep their member list in source order. -/
inductive JVal where
| jnull : JVal
| jbool : Bool → JVal
| jnum : String → JVal
| jstr : String → JVal
| jarr : List JVal → JVal
| jobj : List (String × JVal) → JVal

/-- JSON interelement whitespace accepted by the strict parser. -/
def jsonWs (c : Char) : Bool :=
  c = ' ' || c = '\t' || c = '\n' || c = '\r'

/-- Skip JSON whitespace. -/
def skipWs (cs : List Char) : List Char := cs.dropWhile jsonWs

/-- Value of a hexadecimal digit. -/
def hexVal (c : Char) : Option Nat :=
  if c.isDigit then some (c.toNat - 48)
  else if 'a' ≤ c && c ≤ 'f' then some (c.toNat - 87)
  else if 'A' ≤ c && c ≤ 'F' then some (c.toNat - 55)
  else none

/-- Single-character escapes of JSON strings. -/
def escChar (e : Char) : Option Char :=
  if e = '"' then some '"'
  else if e = '\\' then some '\\'
  else if e = '/' then some '/'
  else if e = 'b' then some '\x08'
  else if e = 'f' then some '\x0c'
  else if e = 'n' then some '\n'
  else if e = 'r' then some '\r'
  else if e = 't' then some '\t'
  else none

/-- Body of a JSON string after the opening quote, strict mode: raw control
characters are rejected, the standard escapes and four-digit hexadecimal escapes
are recognized. Returns the decoded characters and the remainder after the
closing quote. -/
def parseStringBody : Nat → List Char → Option (List Char × List Char)
| 0, _ => none
| Nat.succ fuel, cs =>
  match cs with
  | [] => none
  | c :: rest =>
    if c = '"' then some ([], rest)
    else if c = '\\' then
      match rest with
      | 'u' :: h1 :: h2 :: h3 :: h4 :: rest2 =>
        (match hexVal h1, hexVal h2, hexVal h3, hexVal h4 with
         | some a, some b, some c2, some d =>
           (match parseStringBody fuel rest2 with
            | some (s, r) => some (Char.ofNat (((a * 16 + b) * 16 + c2) * 16 + d) :: s, r)
            | none => none)
         | _, _, _, _ => none)
      | e :: rest2 =>
        (match escChar e with
         | some ec =>
           (match parseStringBody fuel rest2 with
            | some (s, r) => some (ec :: s, r)
            | none => none)
         | none => none)
      | [] => none
    else if c.toNat < 32 then none
    else
      match parseStringBody fuel rest with
      | some (s, r) => some (c :: s, r)
      | none => none

/-- Run of decimal digits and the remainder. -/
def digitsRun (cs : List Char) : List Char × List Char :=
  (cs.takeWhile (fun c => c.isDigit), cs.dropWhile (fun c => c.isDigit))

/-- Integer part of a JSON number: a single zero, or a nonzero digit followed by
digits. -/
def intPart (cs : List Char) : Option (List Char × List Char) :=
  match cs with
  | c :: rest =>
    if c = '0' then some (['0'], rest)
    else if c.isDigit then
      let (ds, r2) := digitsRun rest
      some (c :: ds, r2)
    else none
  | [] => none

/-- Optional fraction part; a dot not followed by a digit is left unconsumed, as
the tokenizing regex of the library parser does. -/
def fracPart (cs : List Char) : List Char × List Char :=
  match cs with
  | '.' :: rest =>
    let (ds, r2) := digitsRun rest
    if ds.isEmpty then ([], cs) else ('.' :: ds, r2)
  | _ => ([], cs)

/-- Optional exponent part; a malformed exponent is left unconsumed. -/
def expPart (cs : List Char) : List Char × List Char :=
  match cs with
  | e :: rest =>
    if e = 'e' || e = 'E' then
      let (sign, rest2) :=
        match rest with
        | s :: r2 => if s = '+' || s = '-' then ([s], r2) else (([] : List Char), rest)
        | [] => (([] : List Char), rest)
      let (ds, r3) := digitsRun rest2
      if ds.isEmpty then ([], e :: rest) else (e :: (sign ++ ds), r3)
    else ([], e :: rest)
  | [] => ([], [])

/-- A JSON number: optional minus, integer part, optional fraction and exponent;
the matched text is kept verbatim. -/
def parseNumber (cs : List Char) : Option (List Char × List Char) :=
  let (neg, cs1) :=
    match cs with
    | '-' :: r => ((['-'] : List Char), r)
    | _ => (([] : List Char), cs)
  match intPart cs1 with
  | none => none
  | some (ip, r1) =>
    let (fp, r2) := fracPart r1
    let (ep, r3) := expPart r2
    some (neg ++ ip ++ fp ++ ep, r3)

/-- One member of a JSON object: whitespace, a quoted key, whitespace, a colon,
then a value parsed by the given value parser. -/
def parseMember (pv : List Char → Option (JVal × List Char)) (cs : List Char) :
    Option ((String × JVal) × List Char) :=
  match skipWs cs with
  | '"' :: rest =>
    (match parseStringBody (rest.length + 1) rest with
     | none => none
     | some (k, r1) =>
       match skipWs r1 with
       | ':' :: r2 =>
         (match pv r2 with
          | some (v, r3) => some ((String.mk k, v), r3)
          | none => none)
       | _ => none)
  | _ => none

/-- Continuation of array elements: a comma and a value, or the closing bracket. -/
def parseArrayRestF (pv : List Char → Option (JVal × List Char)) :
    Nat → List Char → Option (List JVal × List Char)
| 0, _ => none
| Nat.succ fuel, cs =>
  match skipWs cs with
  | ']' :: rest => some ([], rest)
  | ',' :: rest =>
    (match pv rest with
     | none => none
     | some (v, r) =>
       match parseArrayRestF pv fuel r with
       | some (vs, r2) => some (v :: vs, r2)
       | none => none)
  | _ => none

/-- Elements of an array after the opening bracket: empty array, or a first value
followed by the comma-separated continuation. -/
def parseArrayTailF (pv : List Char → Option (JVal × List Char)) (fuel : Nat)
    (cs : List Char) : Option (List JVal × List Char) :=
  match skipWs cs with
  | ']' :: rest => some ([], rest)
  | _ =>
    match pv cs with
    | none => none
    | some (v, r) =>
      match parseArrayRestF pv fuel r with
      | some (vs, r2) => some (v :: vs, r2)
      | none => none

/-- Continuation of object members: a comma and a member, or the closing brace. -/
def parseObjRestF (pv : List Char → Option (JVal × List Char)) :
    Nat → List Char → Option (List (String × JVal) × List Char)
| 0, _ => none
| Nat.succ fuel, cs =>
  match skipWs cs with
  | '}' :: rest => some ([], rest)
  | ',' :: rest =>
    (match parseMember pv rest with
     | none => none
     | some (kv, r) =>
       match parseObjRestF pv fuel r with
       | some (fs, r2) => some (kv :: fs, r2)
       | none => none)
  | _ => none

/-- Members of an object after the opening brace: empty object, or a first member
followed by the comma-separated continuation. -/
def parseObjTailF (pv : List Char → Option (JVal × List Char)) (fuel : Nat)
    (cs : List Char) : Option (List (String × JVal) × List Char) :=
  match skipWs cs with
  | '}' :: rest => some ([], rest)
  | _ =>
    match parseMember pv cs with
    | none => none
    | some (kv, r) =>
      match parseObjRestF pv fuel r with
      | some (fs, r2) => some (kv :: fs, r2)
      | none => none

/-- Dispatch of the strict JSON value parser on the first significant character;
also accepts the NaN and Infinity constants the library parser accepts. The given
parser handles nested values. -/
def parseValueCore (pv : List Char → Option (JVal × List Char)) (cs2 : List Char) :
    Option (JVal × List Char) :=
  match cs2 with
  | [] => none
  | '"' :: rest =>
    (match parseStringBody (rest.length + 1) rest with
     | some (s, r) => some (JVal.jstr (String.mk s), r)
     | none => none)
  | '[' :: rest =>
    (match parseArrayTailF pv (rest.length + 1) rest with
     | some (xs, r) => some (JVal.jarr xs, r)
     | none => none)
  | '{' :: rest =>
    (match parseObjTailF pv (rest.length + 1) rest with
     | some (fs, r) => some (JVal.jobj fs, r)
     | none => none)
  | 't' :: rest =>
    (match dropLit (("rue").data) rest with
     | some r => some (JVal.jbool true, r)
     | none => none)
  | 'f' :: rest =>
    (match dropLit (("alse").data) rest with
     | some r => some (JVal.jbool false, r)
     | none => none)
  | 'n' :: rest =>
    (match dropLit (("ull").data) rest with
     | some r => some (JVal.jnull, r)
     | none => none)
  | 'N' :: rest =>
    (match dropLit (("aN").data) rest with
     | some r => some (JVal.jnum ("NaN"), r)
     | none => none)
  | 'I' :: rest =>
    (match dropLit (("nfinity").data) rest with
     | some r => some (JVal.jnum ("Infinity"), r)
     | none => none)
  | '-' :: 'I' :: rest =>
    (match dropLit (("nfinity").data) rest with
     | some r => some (JVal.jnum ("-Infinity"), r)
     | none => none)
  | c :: rest =>
    (match parseNumber (c :: rest) with
     | some (ds, r) => some (JVal.jnum (String.mk ds), r)
     | none => none)

/-- Strict JSON value parse: skip whitespace, then dispatch; the fuel bounds the
nesting depth only, and the callers always pass more than the input length. -/
def parseValue : Nat → List Char → Option (JVal × List Char)
| 0 => fun _ => none
| Nat.succ fuel => fun cs => parseValueCore (parseValue fuel) (skipWs cs)

/-- Embedding of the strict library parse json.loads: parse one value with ample
fuel and require that only whitespace follows it. -/
def json_loads (s : String) : Option JVal :=
  match parseValue (2 * s.length + 16) s.data with
  | some (v, r) => if (skipWs r).isEmpty then some v else none
  | none => none

/-- First repair substitution of generate_conversation (line 273): every maximal
run of word characters that is directly followed by a colon is wrapped in double
quotes; the run accumulator holds the current word run reversed. -/
def repairKeysAux (run : List Char) : List Char → List Char
| [] => run.reverse
| c :: cs =>
  if wordChar c then repairKeysAux (c :: run) cs
  else if c = ':' then
    if run.isEmpty then ':' :: repairKeysAux [] cs
    else '"' :: (run.reverse ++ '"' :: ':' :: repairKeysAux [] cs)
  else run.reverse ++ c :: repairKeysAux [] cs

/-- Repair substitution entry point. -/
def repairKeys (cs : List Char) : List Char := repairKeysAux [] cs

/-- Second repair substitution (line 274): every single quote becomes a double
quote. -/
def squoteToDquote (c : Char) : Char :=
  if c = Char.ofNat 39 then '"' else c

/-- Candidate end position for the greedy dot-plus of the extraction regex: index j
of the remainder holds the closing brace, at least one character precedes it, and
after it only whitespace characters stand before the closing bracket. -/
def braceClose (rest : List Char) (j : Nat) : Bool :=
  (!(j == 0)) && (rest.getD j ' ' == '}') &&
    (match (rest.drop (j + 1)).dropWhile pyWs with
     | ']' :: _ => true
     | _ => false)

/-- Last candidate end position, realizing the greedy choice of the dot-plus. -/
def lastClose (rest : List Char) : Option Nat :=
  (List.range rest.length).foldl (fun acc j => if braceClose rest j then some j else acc) none

/-- Attempt the conversation extraction regex of generate_conversation (line 263)
at the head of the text: opening bracket, whitespace, opening brace, whitespace,
the literal quoted from-key with its colon, then a greedy nonempty run (DOTALL, so
newlines included) ending at a closing brace, whitespace, and the closing bracket.
Returns the whole matched substring. -/
def matchArrayBody (r1 : List Char) : Option (List Char) :=
  let w1 := r1.takeWhile pyWs
  match r1.dropWhile pyWs with
  | '{' :: r2 =>
    let w2 := r2.takeWhile pyWs
    (match dropLit (("\"from\":").data) (r2.dropWhile pyWs) with
     | none => none
     | some rest =>
       match lastClose rest with
       | none => none
       | some j =>
         let wl := ((rest.drop (j + 1)).takeWhile pyWs).length
         some (w1 ++ '{' :: (w2 ++ (("\"from\":").data ++ rest.take (j + 1 + wl + 1)))))
  | _ => none

/-- The extraction regex attempt at a given start: an opening bracket followed by
the body; the returned match always begins with the opening bracket. -/
def matchArrayAt (cs : List Char) : Option (List Char) :=
  match cs with
  | c :: r1 =>
    if c = '[' then
      (match matchArrayBody r1 with
       | some t => some ('[' :: t)
       | none => none)
    else none
  | [] => none

/-- re.search of the extraction regex: the leftmost start position wins. -/
def searchArray : List Char → Option (List Char)
| [] => none
| c :: cs =>
  match matchArrayAt (c :: cs) with
  | some m => some m
  | none => searchArray cs

/-- Validation part of DataGenerator.generate_conversation (lines 260 to 282),
as a function of the raw model reply: extract the first array-shaped substring
(none when absent), strict-parse it, and on parse failure repair it (quote bare
keys, turn single quotes into double quotes) and retry once; any remaining
failure yields none. -/
def generate_conversation (reply : String) : Option JVal :=
  match searchArray reply.data with
  | none => none
  | some m =>
    match json_loads (String.mk m) with
    | some v => some v
    | none =>
      match json_loads (String.mk ((repairKeys m).map squoteToDquote)) with
      | some v => some v
      | none => none

/-- Python truthiness of a parsed JSON value, as used by the generation loop's
acceptance check; a number is falsy exactly when its mantissa has digits that are
all zero. -/
def truthy : JVal → Bool
| JVal.jnull => false
| JVal.jbool b => b
| JVal.jstr s => !s.isEmpty
| JVal.jarr xs => !xs.isEmpty
| JVal.jobj fs => !fs.isEmpty
| JVal.jnum s =>
  let mantissa := s.data.takeWhile (fun c => !(c = 'e' || c = 'E'))
  !(mantissa.any (fun c => c.isDigit)) || mantissa.any (fun c => c.isDigit && !(c = '0'))

/-- The per-reply acceptance implied by the loop's check of the returned value:
the validated record, kept only when truthy. -/
def accepted (reply : String) : Option JVal :=
  match generate_conversation reply with
  | some v => if truthy v then some v else none
  | none => none

/-- Generation loop of DataGenerator.run (lines 190 to 209). Chunks are paired
with the model reply their submission would receive, since the external model is
a black box. The loop breaks as soon as the index reaches num_samples; every
earlier chunk is submitted, and a submission's record is kept exactly when
validation succeeds and the value is truthy. Returns the submitted chunks and
the accumulated records, both in chunk order. -/
def runLoopS (num_samples : Nat) : Nat → List (String × String) → List String × List JVal
| _, [] => ([], [])
| i, (chunk, reply) :: rest =>
  if num_samples ≤ i then ([], [])
  else
    let next := runLoopS num_samples (i + 1) rest
    match generate_conversation reply with
    | some v => if truthy v then (chunk :: next.1, v :: next.2) else (chunk :: next.1, next.2)
    | none => (chunk :: next.1, next.2)

/-- DataGenerator.run: the loop started at index zero. -/
def dataGenerator_run (chunks : List (String × String)) (num_samples : Nat) :
    List String × List JVal :=
  runLoopS num_samples 0 chunks

/-- Result of one export run: the formats whose write was attempted, the formats
written successfully (files on disk afterwards), and whether the except branch
logged an error. -/
structure ExportResult where
  attempted : List String
  written : List String
  errorLogged : Bool
deriving DecidableEq

/-- AgentChefApp.export_dataset (lines 613 to 642): the three format writes run
inside one try block, in the order parquet, json, csv, each guarded by its
checkbox; a failing write raises, so the remaining formats are not attempted, and
the except branch logs a single error; files already written stay on disk.
Parameters: which formats are checked, and whether each format's write succeeds. -/
def export_dataset (cp cj cc wp wj wc : Bool) : ExportResult :=
  if cp && !wp then ⟨[("parquet")], [], true⟩
  else
    let a1 := if cp then [("parquet")] else []
    if cj && !wj then ⟨a1 ++ [("json")], a1, true⟩
    else
      let a2 := a1 ++ (if cj then [("json")] else [])
      if cc && !wc then ⟨a2 ++ [("csv")], a2, true⟩
      else ⟨a2 ++ (if cc then [("csv")] else []), a2 ++ (if cc then [("csv")] else []), false⟩

/-- Name of the format whose write a given attempted-format name stands for, and
whether that write succeeds, given the three write outcomes. -/
def writeOk (wp wj wc : Bool) (f : String) : Bool :=
  if f = ("parquet") then wp else if f = ("json") then wj else wc

/-- The list of requested formats in the fixed order the code attempts them. -/
def requestedFormats (cp cj cc : Bool) : List String :=
  (if cp then [("parquet")] else []) ++ (if cj then [("json")] else []) ++
    (if cc then [("csv")] else [])

/-- Outcome of the tar extraction attempt of download_source: success, a ReadError
(the only exception type its except arm catches, raised for a non tar+gzip
payload), or any other error, which escapes to the outer handler. -/
inductive TarOutcome where
| ok : TarOutcome
| readError : TarOutcome
| otherError : TarOutcome
deriving DecidableEq, BEq

/-- Observable effects of ArxivFetcher.download_source: completion of the tar
branch (members extracted into the paper directory), the gzip branch writing the
single file main.tex, the verbatim fallback copy to the single file source_file,
and removal of the temporary download. -/
inductive DlEv where
| extractedTar : DlEv
| wroteMainTex : DlEv
| wroteSourceFile : DlEv
| deletedTemp : DlEv
deriving DecidableEq, BEq

/-- ArxivFetcher.download_source (lines 107 to 146): inside the outer try the file
is downloaded, then the tar+gzip extraction is attempted (only a ReadError falls
through to the gzip attempt), then bare gzip decompression (any failure falls
through to the verbatim copy), then the copy; afterwards the temporary file is
deleted and the paper directory returned. Any exception reaching the outer
handler yields none. Parameters: whether the download succeeds, the tar attempt
outcome, and whether the gzip attempt and the copy succeed. -/
def download_source (dlOk : Bool) (tarRes : TarOutcome) (gzOk copyOk : Bool) :
    List DlEv × Option Unit :=
  if !dlOk then ([], none)
  else
    match tarRes with
    | TarOutcome.ok => ([DlEv.extractedTar, DlEv.deletedTemp], some ())
    | TarOutcome.otherError => ([], none)
    | TarOutcome.readError =>
      if gzOk then ([DlEv.wroteMainTex, DlEv.deletedTemp], some ())
      else if copyOk then ([DlEv.wroteSourceFile, DlEv.deletedTemp], some ())
      else ([], none)

/-- Number of turns of a validator result, when it is an array. -/
def turnCount : Option JVal → Nat
| some (JVal.jarr xs) => xs.length
| _ => 0

/-- Speaker of the first turn of a validator result: the value of the from field
of the first object, when that value is a string. -/
def firstFrom : Option JVal → Option String
| some (JVal.jarr (JVal.jobj fields :: _)) =>
  (match fields.lookup ("from") with
   | some (JVal.jstr s) => some s
   | _ => none)
| _ => none

/-- A reply whose from key is quoted but whose other key is bare: the extraction
regex matches it and the repair substitutions make it strictly parseable. -/
def bareValueReply : String := "[\x7b\"from\": \"human\", value: \"x\"\x7d]"

/-- A reply whose from key itself is bare: the extraction regex, which demands the
quoted from-key literally, does not match it. -/
def bareFromReply : String := "[\x7bfrom: \"human\", value: \"x\"\x7d]"

/-- A well-formed one-turn reply whose first speaker is gpt. -/
def gptReply : String := "[\x7b\"from\": \"gpt\", \"value\": \"hi\"\x7d]"

/-- A well-formed one-turn reply. -/
def goodReply : String := "[\x7b\"from\": \"human\", \"value\": \"hi\"\x7d]"

/-- A reply that the extraction regex matches but that neither the strict parse
nor the repaired parse accepts. -/
def badReply : String := "[\x7b\"from\": \"a\", \"value\": [\x7d]"

/-- Five chunks paired with replies, used to instantiate the sample cap theorem. -/
def fiveChunks : List (String × String) :=
  [(("k1"), ("")), (("k2"), ("")), (("k3"), ("")), (("k4"), ("")), (("k5"), (""))]

/-- Helper: the greedy packing loop preserves the concatenation of its inputs. -/
theorem packAux_concat (n : Nat) (l : List String) : ∀ cur : String,
    concatAll (packAux n cur l) = cur ++ concatAll l := by
  induction l with
  | nil =>
    intro cur
    by_cases h : cur = ""
    · simp [packAux, h, concatAll]
    · simp [packAux, h, concatAll, String.append_empty]
  | cons s rest ih =>
    intro cur
    by_cases h : n < cur.length + s.length
    · simp [packAux, h, concatAll, ih s]
    · simp [packAux, h, ih (cur ++ s), concatAll, String.append_assoc]

/-- Helper: every chunk the packing loop emits either fits the bound or is one of
the fragments handed to it. -/
theorem packAux_mem (n : Nat) (frags : List String) :
    ∀ l : List String, (∀ s ∈ l, s ∈ frags) → ∀ cur : String,
      cur.length ≤ n ∨ cur ∈ frags → ∀ c ∈ packAux n cur l, c.length ≤ n ∨ c ∈ frags := by
  intro l
  induction l with
  | nil =>
    intro _ cur hcur c hc
    by_cases h : cur = ""
    · simp [packAux, h] at hc
    · simp [packAux, h] at hc
      subst hc
      exact hcur
  | cons s rest ih =>
    intro hl cur hcur c hc
    by_cases h : n < cur.length + s.length
    · simp only [packAux, if_pos h, List.mem_cons] at hc
      rcases hc with rfl | hc2
      · exact hcur
      · exact ih (fun x hx => hl x (List.mem_cons_of_mem s hx)) s
          (Or.inr (hl s (List.mem_cons_self s rest))) c hc2
    · simp only [packAux, if_neg h] at hc
      refine ih (fun x hx => hl x (List.mem_cons_of_mem s hx)) (cur ++ s) (Or.inl ?_) c hc
      rw [String.length_append]
      exact Nat.not_lt.mp h

/-- Helper: closed form of the generation loop, by induction on the chunk list. -/
theorem runLoopS_eq (n : Nat) : ∀ (l : List (String × String)) (i : Nat),
    runLoopS n i l = ((l.take (n - i)).map Prod.fst,
      ((l.take (n - i)).map Prod.snd).filterMap accepted) := by
  intro l
  induction l with
  | nil => intro i; simp [runLoopS]
  | cons hd tl ih =>
    intro i
    obtain ⟨chunk, reply⟩ := hd
    by_cases hni : n ≤ i
    · have h0 : n - i = 0 := Nat.sub_eq_zero_of_le hni
      simp [runLoopS, hni, h0]
    · have h1 : n - i = (n - (i + 1)) + 1 := by omega
      rw [h1]
      simp only [List.take_succ_cons, List.map_cons, List.filterMap_cons]
      simp only [runLoopS, if_neg hni, ih (i + 1)]
      cases hgc : generate_conversation reply with
      | none => simp [accepted, hgc]
      | some v =>
        by_cases htr : truthy v
        · simp [accepted, hgc, htr]
        · simp [accepted, hgc, htr]

/-- Helper fact by computation: an opening bracket is not JSON whitespace. -/
theorem jsonWs_lbracket : jsonWs '[' = false := rfl

/-- Helper: a value parse of a bracket-headed text yields an array when it
succeeds. -/
theorem parseValueCore_bracket (pv : List Char → Option (JVal × List Char))
    (l : List Char) (v : JVal) (r : List Char)
    (h : parseValueCore pv ('[' :: l) = some (v, r)) : ∃ xs, v = JVal.jarr xs := by
  have h2 : parseValueCore pv ('[' :: l) =
      (match parseArrayTailF pv (l.length + 1) l with
       | some (xs, r2) => some (JVal.jarr xs, r2)
       | none => none) := rfl
  rw [h2] at h
  cases harr : parseArrayTailF pv (l.length + 1) l with
  | none => rw [harr] at h; cases h
  | some p =>
    obtain ⟨xs, r2⟩ := p
    rw [harr] at h
    simp at h
    exact ⟨xs, h.1.symm⟩

/-- Helper: the fuelled value parser on a bracket-headed text yields an array when
it succeeds. -/
theorem parseValue_bracket (fuel : Nat) (l : List Char) (v : JVal) (r : List Char)
    (h : parseValue fuel ('[' :: l) = some (v, r)) : ∃ xs, v = JVal.jarr xs := by
  cases fuel with
  | zero => simp [parseValue] at h
  | succ fuel =>
    have hskip : skipWs ('[' :: l) = '[' :: l := by
      simp [skipWs, List.dropWhile_cons, jsonWs_lbracket]
    simp only [parseValue] at h
    rw [hskip] at h
    exact parseValueCore_bracket (parseValue fuel) l v r h

/-- Helper: a strict parse of a bracket-headed string yields an array when it
succeeds. -/
theorem json_loads_bracket (l : List Char) (v : JVal)
    (h : json_loads (String.mk ('[' :: l)) = some v) : ∃ xs, v = JVal.jarr xs := by
  unfold json_loads at h
  cases hp : parseValue (2 * (String.mk ('[' :: l)).length + 16) (String.mk ('[' :: l)).data with
  | none => rw [hp] at h; cases h
  | some p =>
    obtain ⟨v2, r⟩ := p
    rw [hp] at h
    have h2 : (if (skipWs r).isEmpty = true then some v2 else none) = some v := h
    by_cases hr : (skipWs r).isEmpty = true
    · rw [if_pos hr] at h2
      injection h2 with h3
      rw [← h3]
      exact parseValue_bracket _ _ _ _ hp
    · rw [if_neg hr] at h2
      cases h2

/-- Helper: a successful extraction attempt always starts with the opening
bracket. -/
theorem matchArrayAt_bracket (cs : List Char) (m : List Char)
    (h : matchArrayAt cs = some m) : ∃ t, m = '[' :: t := by
  cases cs with
  | nil => simp [matchArrayAt] at h
  | cons c r1 =>
    by_cases hc : c = '['
    · subst hc
      simp only [matchArrayAt, if_pos rfl] at h
      cases hb : matchArrayBody r1 with
      | none => rw [hb] at h; cases h
      | some t =>
        rw [hb] at h
        injection h with h2
        exact ⟨t, h2.symm⟩
    · simp only [matchArrayAt, if_neg hc] at h
      cases h

/-- Helper: a successful extraction search always returns a bracket-headed
substring. -/
theorem searchArray_bracket : ∀ (cs : List Char) (m : List Char),
    searchArray cs = some m → ∃ t, m = '[' :: t := by
  intro cs
  induction cs with
  | nil => intro m h; simp [searchArray] at h
  | cons c r ih =>
    intro m h
    simp only [searchArray] at h
    cases hma : matchArrayAt (c :: r) with
    | some m2 =>
      rw [hma] at h
      injection h with h2
      rcases matchArrayAt_bracket (c :: r) m2 hma with ⟨t, ht⟩
      exact ⟨t, h2 ▸ ht⟩
    | none =>
      rw [hma] at h
      exact ih m h

/-- Helper fact by computation: the repair substitutions keep a leading opening
bracket in place. -/
theorem repair_bracket (t : List Char) :
    (repairKeys ('[' :: t)).map squoteToDquote =
      '[' :: ((repairKeysAux [] t).map squoteToDquote) := rfl

/-- DatasetExporter format isolation fails on the code: with parquet and json both
requested and the parquet write failing, the export stops inside the single try
block, so the json write, which would have succeeded, is never attempted. -/
theorem export_abort_counterexample :
    export_dataset true true false false true true = ⟨[("parquet")], [], true⟩ ∧
    ¬(("json") ∈ (export_dataset true true false false true true).attempted) := by
  exact ⟨rfl, by decide⟩

/-- Amended claim for the exporter: the requested formats are attempted in the
fixed order parquet, json, csv and the run stops at the first failing write, so
later requested formats are not attempted; formats written before the failure
stay written (no rollback), and one error is logged exactly when some requested
format's write fails. -/
theorem export_stop_at_first_failure (cp cj cc wp wj wc : Bool) :
    (export_dataset cp cj cc wp wj wc).attempted =
      (requestedFormats cp cj cc).takeWhile (writeOk wp wj wc) ++
        ((requestedFormats cp cj cc).dropWhile (writeOk wp wj wc)).take 1 ∧
    (export_dataset cp cj cc wp wj wc).written =
      (requestedFormats cp cj cc).takeWhile (writeOk wp wj wc) ∧
    (export_dataset cp cj cc wp wj wc).errorLogged =
      (requestedFormats cp cj cc).any (fun f => !(writeOk wp wj wc f)) := by
  cases cp <;> cases cj <;> cases cc <;> cases wp <;> cases wj <;> cases wc <;> decide

/-- Chunker completeness fails on the code: re.split keeps only the capture groups
of each boundary marker, so the backslash and braces of a section marker are
dropped and the concatenation of the chunks differs from the cleaned corpus. -/
theorem chunk_concat_counterexample :
    concatAll (chunk_latex ("a \\section\x7bB\x7d c") 100) ≠
      cleanContent ("a \\section\x7bB\x7d c") := by decide

/-- Amended chunker completeness: concatenating all chunks in order reproduces the
concatenation of the split fragments of the cleaned corpus, which equals the
cleaned corpus itself whenever no boundary marker matches; at each boundary
marker the backslash and the two braces are dropped by the split. -/
theorem chunk_concat_fragments :
    (∀ (content : String) (chunk_size : Nat),
       concatAll (chunk_latex content chunk_size) =
         concatAll (splitSections ((cleanContent content).data))) ∧
    (∀ cs : List Char, findBoundary cs = none → splitSections cs = [String.mk cs]) := by
  constructor
  · intro content n
    unfold chunk_latex
    rw [packAux_concat, String.empty_append]
  · intro cs h
    unfold splitSections
    cases hl : cs.length with
    | zero => rfl
    | succ k => simp [splitAuxF, h]

/-- Witness instantiating the amended chunker completeness at a concrete corpus. -/
theorem chunk_concat_fragments_witness :
    concatAll (chunk_latex ("xy") 5) = concatAll (splitSections ((cleanContent ("xy")).data)) ∧
    findBoundary (("xy").data) = none ∧
    splitSections (("xy").data) = [String.mk (("xy").data)] :=
  ⟨chunk_concat_fragments.1 ("xy") 5, by decide,
   chunk_concat_fragments.2 (("xy").data) (by decide)⟩

/-- Validator repair fails on the claim's input: the extraction regex demands the
quoted from-key literally, so a reply whose from key is bare is rejected before
the repair heuristic can run, and validation returns none. -/
theorem validator_bare_from_counterexample : generate_conversation bareFromReply = none := rfl

/-- Amended validator repair: when the from key is quoted, another bare key is
repaired and the retry parses, yielding the one-turn record; a reply with no
array-shaped substring returns none. -/
theorem validator_repair_amended :
    generate_conversation bareValueReply =
      some (JVal.jarr [JVal.jobj [(("from"), JVal.jstr ("human")), (("value"), JVal.jstr ("x"))]]) ∧
    generate_conversation ("no json array in this reply") = none := ⟨rfl, rfl⟩

/-- Identifier extraction fails on the claim's inputs: the url patterns demand the
literal arxiv host, so the host url of the claim matches no pattern and
extraction returns none rather than the identifier. -/
theorem extract_host_counterexample :
    extract_arxiv_id ("https://host/abs/1234.5678") = none := rfl

/-- Amended identifier extraction: on the corresponding arxiv host urls and on the
bare token the identifier is extracted, and an input matching no pattern yields
none. -/
theorem extract_arxiv_id_amended :
    extract_arxiv_id ("https://arxiv.org/abs/1234.5678") = some ("1234.5678") ∧
    extract_arxiv_id ("https://arxiv.org/pdf/1234.5678") = some ("1234.5678") ∧
    extract_arxiv_id ("1234.5678") = some ("1234.5678") ∧
    extract_arxiv_id ("http://example.com/paper") = none := ⟨rfl, rfl, rfl, rfl⟩

/-- ConversationRecord invariant fails on the code: the validator accepts a
one-turn record whose first speaker is gpt, so neither the three-to-five turn
bound nor the human-first rule nor interleaving is enforced. -/
theorem validator_accepts_short_gpt_record :
    (generate_conversation gptReply).isSome = true ∧
    turnCount (generate_conversation gptReply) = 1 ∧
    firstFrom (generate_conversation gptReply) = some ("gpt") ∧
    ¬(3 ≤ turnCount (generate_conversation gptReply)) := ⟨rfl, rfl, rfl, by decide⟩

/-- Amended ConversationRecord invariant: every record the validator accepts is a
parsed JSON array, but its length and speakers are unconstrained; in particular a
one-turn record with first speaker gpt is accepted. -/
theorem validator_accepts_any_array :
    (∀ (reply : String) (v : JVal), generate_conversation reply = some v →
       ∃ xs, v = JVal.jarr xs) ∧
    turnCount (generate_conversation gptReply) = 1 ∧
    firstFrom (generate_conversation gptReply) = some ("gpt") := by
  refine ⟨?_, rfl, rfl⟩
  intro reply v h
  unfold generate_conversation at h
  cases hs : searchArray reply.data with
  | none => rw [hs] at h; cases h
  | some m =>
    rw [hs] at h
    obtain ⟨t, rfl⟩ := searchArray_bracket reply.data m hs
    have h1 : (match json_loads (String.mk ('[' :: t)) with
        | some v => some v
        | none =>
          match json_loads (String.mk ((repairKeys ('[' :: t)).map squoteToDquote)) with
          | some v => some v
          | none => none) = some v := h
    cases hj : json_loads (String.mk ('[' :: t)) with
    | some v2 =>
      rw [hj] at h1
      have h2 : some v2 = some v := h1
      injection h2 with h3
      rw [← h3]
      exact json_loads_bracket _ _ hj
    | none =>
      rw [hj] at h1
      have h2 : (match json_loads (String.mk ((repairKeys ('[' :: t)).map squoteToDquote)) with
          | some v => some v
          | none => none) = some v := h1
      rw [repair_bracket] at h2
      cases hj2 : json_loads (String.mk ('[' :: ((repairKeysAux [] t).map squoteToDquote))) with
      | some v3 =>
        rw [hj2] at h2
        have h4 : some v3 = some v := h2
        injection h4 with h5
        rw [← h5]
        exact json_loads_bracket _ _ hj2
      | none =>
        rw [hj2] at h2
        exact absurd h2 (by simp)

/-- Witness instantiating the amended record invariant at a concrete accepted
reply. -/
theorem validator_accepts_any_array_witness :
    generate_conversation gptReply =
      some (JVal.jarr [JVal.jobj [(("from"), JVal.jstr ("gpt")), (("value"), JVal.jstr ("hi"))]]) ∧
    ∃ xs, JVal.jarr [JVal.jobj [(("from"), JVal.jstr ("gpt")), (("value"), JVal.jstr ("hi"))]] =
      JVal.jarr xs :=
  ⟨rfl, validator_accepts_any_array.1 gptReply
    (JVal.jarr [JVal.jobj [(("from"), JVal.jstr ("gpt")), (("value"), JVal.jstr ("hi"))]]) rfl⟩

/-- Per-sample error isolation: the records of a run are exactly the accepted
records of the submitted replies in chunk order, and in the two-chunk instance
with one valid and one unrepairable reply the dataset has exactly one record. -/
theorem per_sample_isolation :
    (∀ (chunks : List (String × String)) (num_samples : Nat),
       (dataGenerator_run chunks num_samples).2 =
         ((chunks.take num_samples).map Prod.snd).filterMap accepted) ∧
    (dataGenerator_run [(("c1"), goodReply), (("c2"), badReply)] 2).2.length = 1 := by
  constructor
  · intro chunks n
    unfold dataGenerator_run
    rw [runLoopS_eq]
    simp
  · rfl

/-- Chunker bound invariant: every chunk fits the bound, or exceeds it and is a
single indivisible fragment of the boundary split, emitted whole rather than
truncated. -/
theorem chunk_latex_bound (content : String) (chunk_size : Nat) (h : 0 < chunk_size) :
    ∀ c ∈ chunk_latex content chunk_size,
      c.length ≤ chunk_size ∨
        (chunk_size < c.length ∧ c ∈ splitSections ((cleanContent content).data)) := by
  intro c hc
  unfold chunk_latex at hc
  have base := packAux_mem chunk_size (splitSections ((cleanContent content).data))
    (splitSections ((cleanContent content).data)) (fun s hs => hs) ""
    (Or.inl (by simp [String.length_empty])) c hc
  rcases base with hle | hmem
  · exact Or.inl hle
  · rcases le_or_lt c.length chunk_size with h2 | h2
    · exact Or.inl h2
    · exact Or.inr ⟨h2, hmem⟩

/-- Witness instantiating the chunker bound at a concrete corpus and bound. -/
theorem chunk_latex_bound_witness :
    0 < 1 ∧ ∀ c ∈ chunk_latex ("ab") 1,
      c.length ≤ 1 ∨ (1 < c.length ∧ c ∈ splitSections ((cleanContent ("ab")).data)) :=
  ⟨Nat.one_pos, chunk_latex_bound ("ab") 1 Nat.one_pos⟩

/-- Dataset sample cap: the submitted chunks are exactly the first num_samples
chunks in order, so exactly the minimum of the chunk count and the cap are
submitted. -/
theorem sample_cap_submissions (chunks : List (String × String)) (num_samples : Nat)
    (h : 1 ≤ num_samples) :
    (dataGenerator_run chunks num_samples).1 = (chunks.map Prod.fst).take num_samples ∧
    (dataGenerator_run chunks num_samples).1.length = min num_samples chunks.length := by
  have h1 : (dataGenerator_run chunks num_samples).1 = (chunks.take num_samples).map Prod.fst := by
    unfold dataGenerator_run
    rw [runLoopS_eq]
    simp
  constructor
  · rw [h1, List.map_take]
  · rw [h1]
    simp [List.length_take]

/-- Witness instantiating the sample cap with two samples against five chunks. -/
theorem sample_cap_submissions_witness :
    1 ≤ 2 ∧ ((dataGenerator_run fiveChunks 2).1 = (fiveChunks.map Prod.fst).take 2 ∧
      (dataGenerator_run fiveChunks 2).1.length = min 2 fiveChunks.length) :=
  ⟨by decide, sample_cap_submissions fiveChunks 2 (by decide)⟩

/-- Archive extraction fallback chain: success exactly when the download works,
the tar attempt raises nothing worse than a ReadError, and some branch succeeds;
the temporary file deletion is the last effect exactly on success; and each of
the three branches writes its output exactly in its place in the chain, the gzip
branch as the single file main.tex and the fallback as the verbatim copy. -/
theorem download_source_fallback_chain (dlOk : Bool) (tarRes : TarOutcome) (gzOk copyOk : Bool) :
    ((download_source dlOk tarRes gzOk copyOk).2.isSome =
       (dlOk && (!(tarRes == TarOutcome.otherError)) &&
         ((tarRes == TarOutcome.ok) || gzOk || copyOk))) ∧
    ((download_source dlOk tarRes gzOk copyOk).1.getLast? =
       cond (download_source dlOk tarRes gzOk copyOk).2.isSome (some DlEv.deletedTemp) none) ∧
    ((download_source dlOk tarRes gzOk copyOk).1.contains DlEv.extractedTar =
       (dlOk && (tarRes == TarOutcome.ok))) ∧
    ((download_source dlOk tarRes gzOk copyOk).1.contains DlEv.wroteMainTex =
       (dlOk && (tarRes == TarOutcome.readError) && gzOk)) ∧
    ((download_source dlOk tarRes gzOk copyOk).1.contains DlEv.wroteSourceFile =
       (dlOk && (tarRes == TarOutcome.readError) && (!gzOk) && copyOk)) := by
  cases dlOk <;> cases tarRes <;> cases gzOk <;> cases copyOk <;> decide

/-- Implicit chunker edge case: when the first fragment of the cleaned and split
corpus already exceeds the bound, the overflow branch flushes the still-empty
running chunk, so the first emitted chunk is the empty string. -/
theorem chunker_empty_first_chunk (content : String) (chunk_size : Nat) (f : String)
    (rest : List String)
    (h1 : splitSections ((cleanContent content).data) = f :: rest)
    (h2 : chunk_size < f.length) :
    (chunk_latex content chunk_size).head? = some ("") := by
  unfold chunk_latex
  rw [h1]
  have hcond : chunk_size < ("" : String).length + f.length := by
    simpa [String.length_empty]
  simp only [packAux, if_pos hcond, List.head?_cons]

/-- Witness instantiating the empty first chunk at a concrete oversized corpus. -/
theorem chunker_empty_first_chunk_witness :
    splitSections ((cleanContent ("aaaaaa")).data) = [("aaaaaa")] ∧
    3 < ("aaaaaa" : String).length ∧
    (chunk_latex ("aaaaaa") 3).head? = some ("") :=
  ⟨by decide, by decide,
   chunker_empty_first_chunk ("aaaaaa") 3 ("aaaaaa") [] (by decide) (by decide)⟩
